import Mathlib

/-
Shallow embedding of the exam_bot_backend service (FastAPI + SQLAlchemy).

The relational store is modelled as an explicit `DB` value (lists of rows),
the upload directory as an explicit `FS` value (path ↦ bytes), and each
HTTP handler as a pure function from the pre-state (plus the outcomes of
the external calls it makes: Stripe, Google Vision, OpenAI, PIL) to a
response and the post-state.  `db.commit()` is modelled as the atomic
application of the session's pending changes: when the commit raises
(for instance an integrity error from a unique index) no pending change
is persisted, matching SQLAlchemy's rollback-on-error semantics.
-/

namespace ExamBot

/-! ## Filesystem model (the local `uploads` directory) -/

/-- A filesystem is a list of (path, bytes) entries; bytes are modelled as
natural numbers.  Writing with mode wb truncates any existing file. -/
abbrev FS := List (String × List Nat)

def FS.read (fs : FS) (p : String) : Option (List Nat) :=
  (fs.find? (fun e => e.1 == p)).map (fun e => e.2)

def FS.write (fs : FS) (p : String) (c : List Nat) : FS :=
  (p, c) :: fs.filter (fun e => e.1 != p)

def FS.remove (fs : FS) (p : String) : FS :=
  fs.filter (fun e => e.1 != p)

/-! ## app/utils/image_processing.py -/

/-- Index of the last occurrence of a character in a list, if any. -/
def lastIdxOf (c : Char) : List Char → Option Nat
  | [] => none
  | a :: as =>
    match lastIdxOf c as with
    | some i => some (i + 1)
    | none => if a = c then some 0 else none

/-- The extension part of `os.path.splitext` for a bare filename: the suffix
from the last dot, except that leading dots do not start an extension
(CPython's `genericpath._splitext` with `filenameIndex = 0`). -/
def splitextExt (name : String) : String :=
  let cs := name.toList
  match lastIdxOf ('.') cs with
  | none => ("")
  | some i =>
    if (cs.take i).any (fun a => a != ('.')) then String.mk (cs.drop i) else ("")

/-- Python's `str.lower()` as used on the file extension (ASCII case
mapping), written over the character list so that concrete instances
evaluate inside the kernel. -/
def lowerStr (s : String) : String :=
  String.mk (s.toList.map Char.toLower)

/-- `process_image_file(file, original_filename)`.

`pngEncode` stands for PIL's decode-and-reencode-as-PNG transformation used
by `convert_heic_to_png`; `heifSupport` is the module-level `HEIF_SUPPORT`
flag (whether `pillow_heif` imported); `convertOk = false` means
`convert_heic_to_png` raised (unreadable image data).  Returns the
(content, extension) pair, or the raised error. -/
def process_image_file (pngEncode : List Nat → List Nat) (heifSupport convertOk : Bool)
    (fileContent : List Nat) (originalFilename : String) :
    Except String (List Nat × String) :=
  let ext := lowerStr (splitextExt originalFilename)
  if (ext = (".heic") ∨ ext = (".heif")) ∧ heifSupport then
    if convertOk then Except.ok (pngEncode fileContent, (".png"))
    else Except.error ("Error converting HEIC to PNG")
  else Except.ok (fileContent, ext)

/-- `save_uploaded_image(file, original_filename, upload_dir)`.

`uuid` is the freshly drawn `uuid.uuid4()` string.  On success returns the
stored path and the filesystem with the file written. -/
def save_uploaded_image (pngEncode : List Nat → List Nat) (heifSupport convertOk : Bool)
    (uuid : String) (fs : FS) (fileContent : List Nat)
    (originalFilename upload_dir : String) : Except String (String × FS) :=
  match process_image_file pngEncode heifSupport convertOk fileContent originalFilename with
  | Except.error e => Except.error e
  | Except.ok (c, ext) =>
    let filename := uuid ++ ext
    let file_path := upload_dir ++ ("/") ++ filename
    Except.ok (file_path, FS.write fs file_path c)

/-! Helper characterizations used by the theorems about image intake. -/

/-- Whether an upload is routed through the HEIC-to-PNG conversion branch. -/
def isLegacyUpload (heifSupport : Bool) (name : String) : Prop :=
  (lowerStr (splitextExt name) = (".heic") ∨ lowerStr (splitextExt name) = (".heif"))
    ∧ heifSupport

instance (hs : Bool) (name : String) : Decidable (isLegacyUpload hs name) := by
  unfold isLegacyUpload; infer_instance

/-- The extension under which an upload is stored. -/
def savedExt (heifSupport : Bool) (name : String) : String :=
  if isLegacyUpload heifSupport name then (".png") else lowerStr (splitextExt name)

/-- The path under which an upload is stored. -/
def savedPath (heifSupport : Bool) (uuid name dir : String) : String :=
  dir ++ ("/") ++ (uuid ++ savedExt heifSupport name)

/-- The bytes an upload stores. -/
def savedContent (pngEncode : List Nat → List Nat) (heifSupport : Bool)
    (content : List Nat) (name : String) : List Nat :=
  if isLegacyUpload heifSupport name then pngEncode content else content

/-! ## app/models/models.py -/

inductive QuestionType where
  | multiple_choice
  | open_ended
deriving DecidableEq

/-- Row of the `users` table. -/
structure User where
  id : Nat
  email : String
  hashed_password : String
  is_active : Bool
  is_superuser : Bool
  credits : Int
deriving DecidableEq

/-- Row of the `questions` table.  The JSON `options` column is modelled as
an optional association list. -/
structure Question where
  id : Nat
  user_id : Nat
  image_path : String
  extracted_text : String
  question_text : String
  options : Option (List (String × String))
  question_type : QuestionType
  answer : String
  explanation : Option String
deriving DecidableEq

/-- Row of the `payments` table.  The source stores `amount` as a float of
dollars (`payment_intent.amount / 100`); to stay in integers we record the
provider's raw amount in cents.  `stripe_payment_id` carries a unique
index. -/
structure Payment where
  id : Nat
  user_id : Nat
  amountCents : Nat
  currency : String
  status : String
  stripe_payment_id : String
  credits_purchased : Int
deriving DecidableEq

/-- The relational store. -/
structure DB where
  users : List User
  questions : List Question
  payments : List Payment
deriving DecidableEq

/-- Autoincrement primary key for a new user row. -/
def nextUserId (db : DB) : Nat :=
  (db.users.map (fun u => u.id)).foldr max 0 + 1

/-- Autoincrement primary key for a new question row. -/
def nextQuestionId (db : DB) : Nat :=
  (db.questions.map (fun q => q.id)).foldr max 0 + 1

/-- Autoincrement primary key for a new payment row. -/
def nextPaymentId (db : DB) : Nat :=
  (db.payments.map (fun p => p.id)).foldr max 0 + 1

/-- The ORM update `user.credits += delta` (or `-= 1`) as persisted by the
commit: the row with the given id gets its balance shifted. -/
def updateUserCredits (users : List User) (uid : Nat) (delta : Int) : List User :=
  users.map (fun u => if u.id = uid then { u with credits := u.credits + delta } else u)

/-! ## app/services/google_vision.py -/

/-- The literal string `detect_text` returns when `self.client is None`. -/
def visionInitErrorMsg : String :=
  "Error: Google Vision API client not initialized. Please check credentials."

/-- Outcome of the external `client.text_detection` call: either the API
reported an error message, or it returned a list of text annotations whose
first element is the complete detected text. -/
inductive VisionResponse where
  | apiError (msg : String)
  | detected (texts : List String)
deriving DecidableEq

/-- `GoogleVisionService.detect_text(image_path)`.

`clientReady` is whether `__init__` managed to build the client
(`self.client is not None`).  `Except.error` models a raised exception;
note that the uninitialized-client case does NOT raise — it returns an
ordinary string. -/
def detect_text (clientReady : Bool) (resp : VisionResponse) :
    Except String String :=
  if clientReady = false then Except.ok visionInitErrorMsg
  else
    match resp with
    | VisionResponse.apiError m => Except.error (("Error detecting text: ") ++ m)
    | VisionResponse.detected [] => Except.ok ("")
    | VisionResponse.detected (t :: _) => Except.ok t

/-- `GoogleVisionService.process_screenshot` — returns the dictionary whose
`extracted_text` entry is the `detect_text` result (propagating a raised
error). -/
def process_screenshot (clientReady : Bool) (resp : VisionResponse)
    (image_path : String) (qt : QuestionType) :
    Except String (String × String × QuestionType) :=
  match detect_text clientReady resp with
  | Except.error e => Except.error e
  | Except.ok t => Except.ok (image_path, t, qt)

/-! ## app/api/routers/payments.py — stripe_webhook -/

/-- A `payment_intent.succeeded` event as decoded by
`stripe.Webhook.construct_event`, with the metadata fields the handler
reads.  (The handler assumes well-formed metadata; a missing field would
raise and fall into the generic 500 branch, which no claim exercises.) -/
structure WebhookEvent where
  type : String
  piId : String
  amountCents : Nat
  userId : Nat
  creditPackage : String
  credits : Int
deriving DecidableEq

inductive WebhookResp where
  | success
  | errorUserNotFound
  | httpError (code : Nat)
deriving DecidableEq

/-- `stripe_webhook(request, db)`.

`constructed = none` models `stripe.Webhook.construct_event` raising
`SignatureVerificationError` (invalid signature); `some ev` is the decoded
event.  The commit is atomic: inserting the new `Payment` row violates the
unique index on `stripe_payment_id` exactly when some existing row carries
the same provider id, in which case `db.commit()` raises, the session is
rolled back (no row inserted, no balance change persisted) and the generic
`except Exception` branch turns the failure into an HTTP 500. -/
def stripe_webhook (constructed : Option WebhookEvent) (db : DB) :
    WebhookResp × DB :=
  match constructed with
  | none => (WebhookResp.httpError 400, db)
  | some ev =>
    if ev.type = ("payment_intent.succeeded") then
      match db.users.find? (fun u => u.id == ev.userId) with
      | none => (WebhookResp.errorUserNotFound, db)
      | some _ =>
        if db.payments.any (fun p => p.stripe_payment_id == ev.piId) then
          (WebhookResp.httpError 500, db)
        else
          let pay : Payment :=
            { id := nextPaymentId db
              user_id := ev.userId
              amountCents := ev.amountCents
              currency := ("usd")
              status := ("completed")
              stripe_payment_id := ev.piId
              credits_purchased := ev.credits }
          (WebhookResp.success,
            { db with
                payments := db.payments ++ [pay]
                users := updateUserCredits db.users ev.userId ev.credits })
    else (WebhookResp.success, db)

/-- `create_payment_intent(payment_data, db, current_user)` — validates the
package and calls Stripe; it never writes to the database. -/
def CREDIT_PACKAGES : List (String × Int × Nat) :=
  [(("small"), 10, 499), (("medium"), 50, 1999), (("large"), 200, 5999)]

def create_payment_intent (stripeOk : Bool) (db : DB) (pkg : String) :
    Except Nat Unit × DB :=
  match CREDIT_PACKAGES.find? (fun e => e.1 == pkg) with
  | none => (Except.error 400, db)
  | some _ => if stripeOk then (Except.ok (), db) else (Except.error 500, db)

/-! ## app/api/routers/auth.py -/

/-- `register_user(user_in, db)`.

`hashedPw` is the value of `get_password_hash(user_in.password)`
(app/core/security.py is external to the handler; the hash value is
irrelevant to every claim, so it is passed in).  New users get
`is_active=True`, `is_superuser=False` and 5 free credits. -/
def register_user (db : DB) (email hashedPw : String) : Except Nat User × DB :=
  match db.users.find? (fun u => u.email == email) with
  | some _ => (Except.error 400, db)
  | none =>
    let db_user : User :=
      { id := nextUserId db
        email := email
        hashed_password := hashedPw
        is_active := true
        is_superuser := false
        credits := 5 }
    (Except.ok db_user, { db with users := db.users ++ [db_user] })

/-- Modelled from the spec: `app/core/security.py` (`authenticate_user`,
`create_access_token`) is not among the sources; per the spec the login
endpoint verifies the credential against the stored hash and returns an
HMAC-signed bearer token whose subject is the account identifier, with no
ledger mutation.  `verifyPw` is the external hash check; the ok value is
the subject id of the issued token. -/
def login_for_access_token (verifyPw : String → String → Bool) (db : DB)
    (username password : String) : Except Nat Nat × DB :=
  match db.users.find? (fun u => u.email == username) with
  | none => (Except.error 401, db)
  | some u =>
    if verifyPw password u.hashed_password then (Except.ok u.id, db)
    else (Except.error 401, db)

/-! ## app/api/routers/questions.py -/

instance {ε α : Type} [DecidableEq ε] [DecidableEq α] : DecidableEq (Except ε α) := fun a b =>
  match a, b with
  | Except.error x, Except.error y =>
    if h : x = y then Decidable.isTrue (congrArg Except.error h)
    else Decidable.isFalse (fun hc => h (Except.error.inj hc))
  | Except.error _, Except.ok _ => Decidable.isFalse (fun hc => Except.noConfusion hc)
  | Except.ok _, Except.error _ => Decidable.isFalse (fun hc => Except.noConfusion hc)
  | Except.ok x, Except.ok y =>
    if h : x = y then Decidable.isTrue (congrArg Except.ok h)
    else Decidable.isFalse (fun hc => h (Except.ok.inj hc))

/-- Per-request outcomes of the external services the upload handler calls:
the PIL conversion inside `save_uploaded_image`, Google Vision
(`process_screenshot`), and OpenAI (`analyze_question`).  `commitOk` is
whether the final `db.commit()` succeeds (persistence failure otherwise).
An `Except.error` in `ocr`/`analysis` models the call raising. -/
structure UploadOracles where
  heifSupport : Bool
  convertOk : Bool
  uuid : String
  ocr : Except String String
  analysis : Except String (String × Option (List (String × String)) × String × Option String)
  commitOk : Bool
deriving DecidableEq

inductive UploadResponse where
  | payment402
  | serverError500
  | created (q : Question)
deriving DecidableEq

/-- Result of one run of the upload handler; `paidCalls` records, in
order, the external paid API calls actually performed (instrumentation used
to state that rejection happens before any paid call). -/
structure UploadResult where
  resp : UploadResponse
  db : DB
  fs : FS
  paidCalls : List String
deriving DecidableEq

/-- `upload_question_image(file, question_type, show_explanation, db,
current_user)`.

Mirrors the handler: the credit check precedes the `try` block; inside it,
`save_uploaded_image` (upload_dir `uploads`), then Vision, then OpenAI,
then `db.add(question)`, `current_user.credits -= 1`, `db.commit()` —
the add and the debit are pending session changes persisted only by the
commit.  Any exception lands in the `except` branch, which removes the
written file (when `file_path` was bound and the file exists) and answers
HTTP 500; the session's pending changes are never committed there. -/
def upload_question_image (pngEncode : List Nat → List Nat) (o : UploadOracles)
    (db : DB) (fs : FS) (current_user : User) (fileContent : List Nat)
    (filename : String) (question_type : QuestionType) : UploadResult :=
  if current_user.credits ≤ 0 then
    { resp := UploadResponse.payment402, db := db, fs := fs, paidCalls := [] }
  else
    match save_uploaded_image pngEncode o.heifSupport o.convertOk o.uuid fs
        fileContent filename ("uploads") with
    | Except.error _ =>
      { resp := UploadResponse.serverError500, db := db, fs := fs, paidCalls := [] }
    | Except.ok (file_path, fs') =>
      match o.ocr with
      | Except.error _ =>
        { resp := UploadResponse.serverError500, db := db
          fs := FS.remove fs' file_path, paidCalls := [("vision")] }
      | Except.ok extracted_text =>
        match o.analysis with
        | Except.error _ =>
          { resp := UploadResponse.serverError500, db := db
            fs := FS.remove fs' file_path
            paidCalls := [("vision"), ("openai")] }
        | Except.ok (qtext, opts, ans, expl) =>
          let question : Question :=
            { id := nextQuestionId db
              user_id := current_user.id
              image_path := file_path
              extracted_text := extracted_text
              question_text := qtext
              options := opts
              question_type := question_type
              answer := ans
              explanation := expl }
          if o.commitOk then
            { resp := UploadResponse.created question
              db := { db with
                        questions := db.questions ++ [question]
                        users := updateUserCredits db.users current_user.id (-1) }
              fs := fs'
              paidCalls := [("vision"), ("openai")] }
          else
            { resp := UploadResponse.serverError500, db := db
              fs := FS.remove fs' file_path
              paidCalls := [("vision"), ("openai")] }

/-- `get_user_questions(skip, limit, db, current_user)` — read-only. -/
def get_user_questions (db : DB) (current_user : User) (skip limit : Nat) :
    List Question :=
  ((db.questions.filter (fun q => q.user_id == current_user.id)).drop skip).take limit

/-- `get_question(question_id, db, current_user)`. -/
def get_question (db : DB) (current_user : User) (question_id : Nat) :
    Except Nat Question :=
  match db.questions.find? (fun q => q.id == question_id) with
  | none => Except.error 404
  | some q =>
    if q.user_id ≠ current_user.id then Except.error 403 else Except.ok q

/-- `delete_question(question_id, db, current_user)` — removes the backing
image file, then deletes the fetched row and commits. -/
def delete_question (db : DB) (fs : FS) (current_user : User)
    (question_id : Nat) : Except Nat Unit × DB × FS :=
  match db.questions.find? (fun q => q.id == question_id) with
  | none => (Except.error 404, db, fs)
  | some q =>
    if q.user_id ≠ current_user.id then (Except.error 403, db, fs)
    else
      (Except.ok (),
        { db with questions := db.questions.eraseP (fun q2 => q2.id == question_id) },
        FS.remove fs q.image_path)

/-- `get_payment_history(skip, limit, db, current_user)` — read-only. -/
def get_payment_history (db : DB) (current_user : User) (skip limit : Nat) :
    List Payment :=
  ((db.payments.filter (fun p => p.user_id == current_user.id)).drop skip).take limit

/-! ## Request layer: every client-facing endpoint other than the webhook,
as a state transition on (DB, FS).

`get_current_active_user` resolves the bearer token's subject to a user row
and rejects inactive users with no state change; an unresolvable subject is
a 401 with no state change. -/

inductive EndpointCall where
  | register (email hashedPw : String)
  | login (verifyPw : String → String → Bool) (username password : String)
  | me (userId : Nat)
  | upload (pngEncode : List Nat → List Nat) (o : UploadOracles) (userId : Nat)
      (fileContent : List Nat) (filename : String) (qt : QuestionType)
  | listQuestions (userId skip limit : Nat)
  | getQ (userId qid : Nat)
  | deleteQ (userId qid : Nat)
  | createIntent (stripeOk : Bool) (userId : Nat) (pkg : String)
  | history (userId skip limit : Nat)

/-- The `Depends(get_current_active_user)` chain: look up the token's
subject; run the handler only for an existing, active user. -/
def withActiveUser (db : DB) (fs : FS) (userId : Nat)
    (k : User → DB × FS) : DB × FS :=
  match db.users.find? (fun u => u.id == userId) with
  | none => (db, fs)
  | some u => if u.is_active then k u else (db, fs)

/-- State transition of one non-webhook endpoint invocation (responses
dropped; read-only endpoints leave the state alone by construction of
their handlers). -/
def applyCall (c : EndpointCall) (db : DB) (fs : FS) : DB × FS :=
  match c with
  | EndpointCall.register e hp => ((register_user db e hp).2, fs)
  | EndpointCall.login v u p => ((login_for_access_token v db u p).2, fs)
  | EndpointCall.me _ => (db, fs)
  | EndpointCall.upload pe o uid content fn qt =>
    withActiveUser db fs uid (fun cu =>
      let r := upload_question_image pe o db fs cu content fn qt
      (r.db, r.fs))
  | EndpointCall.listQuestions _ _ _ => (db, fs)
  | EndpointCall.getQ _ _ => (db, fs)
  | EndpointCall.deleteQ uid qid =>
    withActiveUser db fs uid (fun cu =>
      let r := delete_question db fs cu qid
      (r.2.1, r.2.2))
  | EndpointCall.createIntent so _ pkg => ((create_payment_intent so db pkg).2, fs)
  | EndpointCall.history _ _ _ => (db, fs)

/-- Balances never grow: the post-state row has the same id and no larger
balance than the pre-state row at the same position. -/
def creditNonIncrease (u u' : User) : Prop :=
  u'.id = u.id ∧ u'.credits ≤ u.credits

/-! ## Concrete states used to exercise the endpoints -/

def c1User : User :=
  { id := 7, email := ("buyer@example.com"), hashed_password := ("h")
    is_active := true, is_superuser := false, credits := 3 }

/-- A `payment_intent.succeeded` delivery for user 7, package small. -/
def c1Event : WebhookEvent :=
  { type := ("payment_intent.succeeded"), piId := ("pi_replay")
    amountCents := 499, userId := 7, creditPackage := ("small"), credits := 10 }

def c1Db : DB := { users := [c1User], questions := [], payments := [] }

def c4User : User :=
  { id := 1, email := ("zero@example.com"), hashed_password := ("h")
    is_active := true, is_superuser := false, credits := 0 }

def c4Oracles : UploadOracles :=
  { heifSupport := true, convertOk := true, uuid := ("u")
    ocr := Except.ok ("text"), analysis := Except.ok (("q"), none, ("A"), none)
    commitOk := true }

def c4Db : DB := { users := [c4User], questions := [], payments := [] }

def c5User : User :=
  { id := 1, email := ("one@example.com"), hashed_password := ("h")
    is_active := true, is_superuser := false, credits := 1 }

/-- Oracles for a run in which Google Vision raises. -/
def c5Oracles : UploadOracles :=
  { heifSupport := true, convertOk := true, uuid := ("u")
    ocr := Except.error ("boom"), analysis := Except.ok (("q"), none, ("A"), none)
    commitOk := true }

def c5Db : DB := { users := [c5User], questions := [], payments := [] }

def c9User : User :=
  { id := 1, email := ("owner@example.com"), hashed_password := ("h")
    is_active := true, is_superuser := false, credits := 2 }

def c9Question : Question :=
  { id := 1, user_id := 1, image_path := ("uploads/x.png")
    extracted_text := ("t"), question_text := ("q"), options := none
    question_type := QuestionType.open_ended, answer := ("A"), explanation := none }

def c9Db : DB := { users := [c9User], questions := [c9Question], payments := [] }

def c9Fs : FS := [(("uploads/x.png"), [7, 7])]

def c10Db : DB := { users := [], questions := [], payments := [] }

/-! ## Library lemmas about the filesystem model -/

theorem FS.read_write (fs : FS) (p : String) (c : List Nat) :
    FS.read (FS.write fs p c) p = some c := by
  simp [FS.read, FS.write]

theorem find_filter_ne (fs : FS) (p q : String) (h : q ≠ p) :
    List.find? (fun e => e.1 == q) (fs.filter (fun e => e.1 != p)) =
      List.find? (fun e => e.1 == q) fs := by
  induction fs with
  | nil => rfl
  | cons e es ih =>
    by_cases heq : e.1 = q
    · have hne : e.1 ≠ p := fun hc => h (heq.symm.trans hc)
      have hep : (e.1 != p) = true := by simp [bne, beq_iff_eq, hne]
      have hq : (e.1 == q) = true := by simp [beq_iff_eq, heq]
      simp [List.filter_cons, hep, List.find?_cons, hq]
    · have hq : (e.1 == q) = false := by simp [beq_iff_eq, heq]
      by_cases hep : e.1 = p
      · have hne : (e.1 != p) = false := by simp [bne, hep]
        simp [List.filter_cons, hne, List.find?_cons, hq, ih]
      · have hne : (e.1 != p) = true := by simp [bne, beq_iff_eq, hep]
        simp [List.filter_cons, hne, List.find?_cons, hq, ih]

theorem FS.read_write_ne (fs : FS) (p q : String) (c : List Nat) (h : q ≠ p) :
    FS.read (FS.write fs p c) q = FS.read fs q := by
  have hpq : ((p, c).1 == q) = false := by
    simp [beq_iff_eq]
    exact fun hc => h hc.symm
  simp only [FS.read, FS.write, List.find?_cons, hpq]
  rw [find_filter_ne fs p q h]

theorem FS.filter_fresh (fs : FS) (p : String) (h : FS.read fs p = none) :
    fs.filter (fun e => e.1 != p) = fs := by
  apply List.filter_eq_self.mpr
  intro e he
  simp only [FS.read, Option.map_eq_none'] at h
  have := List.find?_eq_none.mp h e he
  simpa [bne] using this

/-- Removing a freshly-written file restores the filesystem exactly. -/
theorem FS.remove_write_fresh (fs : FS) (p : String) (c : List Nat)
    (h : FS.read fs p = none) : FS.remove (FS.write fs p c) p = fs := by
  simp only [FS.remove, FS.write, List.filter_cons]
  have : ((p, c).1 != p) = false := by simp [bne]
  rw [this]
  simp only [List.filter_filter]
  have : (fun (e : String × List Nat) => (e.1 != p) && (e.1 != p)) =
      (fun e => e.1 != p) := by
    funext e; rw [Bool.and_self]
  rw [this]
  exact FS.filter_fresh fs p h


theorem FS.read_remove (fs : FS) (p : String) :
    FS.read (FS.remove fs p) p = none := by
  unfold FS.read FS.remove
  rw [Option.map_eq_none']
  apply List.find?_eq_none.mpr
  intro e he
  have h2 := (List.mem_filter.mp he).2
  simp only [bne] at h2
  simpa using h2

/-! ## Image intake: characterization of process_image_file -/

theorem process_image_file_eq (pngEncode : List Nat → List Nat)
    (content : List Nat) (name : String) :
    process_image_file pngEncode true true content name =
      Except.ok (savedContent pngEncode true content name, savedExt true name) := by
  unfold process_image_file savedContent savedExt isLegacyUpload
  by_cases h : lowerStr (splitextExt name) = (".heic") ∨ lowerStr (splitextExt name) = (".heif")
  · simp [h]
  · simp [h]

/-- C7: for every uploaded byte stream (with HEIF support available and the
conversion succeeding), a legacy-phone extension (.heic/.heif, case folded)
gets its content PNG-converted and a .png extension, any other content
passes through unchanged with its lowercased extension; the stored name is
the freshly generated uuid-name with the resolved extension under the
upload directory, a fresh path leaves every existing file intact, and the
returned value is the stored path. -/
theorem C7_save_uploaded_image_contract (pngEncode : List Nat → List Nat)
    (uuid : String) (fs : FS) (content : List Nat) (name dir : String)
    (hfresh : FS.read fs (savedPath true uuid name dir) = none) :
    save_uploaded_image pngEncode true true uuid fs content name dir =
      Except.ok (savedPath true uuid name dir,
        (savedPath true uuid name dir, savedContent pngEncode true content name) :: fs) ∧
    FS.read ((savedPath true uuid name dir, savedContent pngEncode true content name) :: fs)
        (savedPath true uuid name dir) = some (savedContent pngEncode true content name) ∧
    (∀ q, q ≠ savedPath true uuid name dir →
      FS.read ((savedPath true uuid name dir, savedContent pngEncode true content name) :: fs) q
        = FS.read fs q) ∧
    (isLegacyUpload true name → savedExt true name = (".png") ∧
      savedContent pngEncode true content name = pngEncode content) ∧
    (¬ isLegacyUpload true name → savedExt true name = lowerStr (splitextExt name) ∧
      savedContent pngEncode true content name = content) := by
  have hw : FS.write fs (savedPath true uuid name dir)
      (savedContent pngEncode true content name) =
      (savedPath true uuid name dir, savedContent pngEncode true content name) :: fs := by
    unfold FS.write
    rw [FS.filter_fresh fs (savedPath true uuid name dir) hfresh]
  refine ⟨?_, ?_, ?_, ?_, ?_⟩
  · unfold save_uploaded_image
    rw [process_image_file_eq]
    rw [show (savedPath true uuid name dir) = dir ++ ("/") ++ (uuid ++ savedExt true name) from rfl] at hw ⊢
    show Except.ok (dir ++ ("/") ++ (uuid ++ savedExt true name),
      FS.write fs (dir ++ ("/") ++ (uuid ++ savedExt true name))
        (savedContent pngEncode true content name)) = _
    rw [hw]
  · simp [FS.read, List.find?_cons]
  · intro q hq
    have : ((savedPath true uuid name dir, savedContent pngEncode true content name).1 == q) = false := by
      simp [beq_iff_eq]
      exact fun hc => hq hc.symm
    simp only [FS.read, List.find?_cons, this]
  · intro hl
    unfold savedExt savedContent
    rw [if_pos hl, if_pos hl]
    exact ⟨rfl, rfl⟩
  · intro hl
    unfold savedExt savedContent
    rw [if_neg hl, if_neg hl]
    exact ⟨rfl, rfl⟩

theorem C7_witness :
    save_uploaded_image (fun l => 0 :: l) true true ("u") [] [1, 2] ("photo.HEIC") ("uploads") =
      Except.ok (("uploads/u.png"), [(("uploads/u.png"), [0, 1, 2])]) :=
  (C7_save_uploaded_image_contract (fun l => 0 :: l) ("u") [] [1, 2] ("photo.HEIC")
    ("uploads") (by decide)).1

/-- C8 counterexample: image intake applies no compression at all — a plain
JPEG upload of arbitrary bytes is stored byte-identical to the input (here
the raw bytes 1,2,3), with no encode-quality loop anywhere in the path. -/
theorem C8_counterexample :
    save_uploaded_image (fun l => l) true true ("u") [] [1, 2, 3] ("big.jpg") ("uploads") =
      Except.ok (("uploads/u.jpg"), [(("uploads/u.jpg"), [1, 2, 3])]) := by decide

/-- C8 (amended): image intake performs no size-based compression: for every
upload whose name is not routed through the HEIC conversion branch, the
stored bytes are exactly the uploaded bytes, so intake trivially terminates
and never lowers encode quality. -/
theorem C8_no_compression (pngEncode : List Nat → List Nat) (uuid : String)
    (fs : FS) (content : List Nat) (name dir : String)
    (h : ¬ isLegacyUpload true name) :
    save_uploaded_image pngEncode true true uuid fs content name dir =
      Except.ok (savedPath true uuid name dir,
        FS.write fs (savedPath true uuid name dir) content) := by
  unfold save_uploaded_image
  rw [process_image_file_eq]
  have hc : savedContent pngEncode true content name = content := by
    unfold savedContent; rw [if_neg h]
  rw [hc]
  rw [show (savedPath true uuid name dir) = dir ++ ("/") ++ (uuid ++ savedExt true name) from rfl]

theorem C8_witness :
    ¬ isLegacyUpload true ("pic.jpg") ∧
    save_uploaded_image (fun l => 9 :: l) true true ("v") [] [5] ("pic.jpg") ("uploads") =
      Except.ok (savedPath true ("v") ("pic.jpg") ("uploads"),
        FS.write [] (savedPath true ("v") ("pic.jpg") ("uploads")) [5]) :=
  ⟨by decide, C8_no_compression (fun l => 9 :: l) ("v") [] [5] ("pic.jpg") ("uploads") (by decide)⟩

/-- C6 counterexample: with the backing client uninitialized, `detect_text`
does not signal a distinguishable service-unavailable error — it returns an
ordinary successful string, indistinguishable from a genuine OCR result
that happens to read the same. -/
theorem C6_counterexample :
    detect_text false (VisionResponse.detected []) = Except.ok visionInitErrorMsg ∧
    detect_text false (VisionResponse.detected [])
      = detect_text true (VisionResponse.detected [visionInitErrorMsg]) :=
  ⟨rfl, rfl⟩

/-- C6 (amended): if the backing OCR client failed to initialize, every call
to `detect_text` returns the fixed error-message string as an ordinary
successful result (not a distinguishable error); otherwise, when the
service detects no text, the call returns the empty string. -/
theorem C6_detect_text (resp : VisionResponse) :
    detect_text false resp = Except.ok visionInitErrorMsg ∧
    detect_text true (VisionResponse.detected []) = Except.ok ("") :=
  ⟨rfl, rfl⟩

/-! ## Payment reconciliation -/

/-- C1: replaying a webhook delivery with the same provider payment id does
not credit the balance a second time — but, contrary to the claim, the
duplicate is NOT handled as a no-op success: the insert trips the unique
index on `stripe_payment_id`, `db.commit()` raises, and the generic
exception handler answers HTTP 500.  The first delivery succeeds; the
identical second delivery returns the 500 error and leaves the state
(balances included) exactly as it was. -/
theorem C1_duplicate_webhook_500 :
    (stripe_webhook (some c1Event) c1Db).1 = WebhookResp.success ∧
    stripe_webhook (some c1Event) (stripe_webhook (some c1Event) c1Db).2 =
      (WebhookResp.httpError 500, (stripe_webhook (some c1Event) c1Db).2) ∧
    ((stripe_webhook (some c1Event) c1Db).2.users.map (fun u => u.credits)) = [13] := by
  decide

/-- C3: a webhook request whose signature fails verification is rejected
with HTTP 400 and takes no ledger action: the database — balances and
payment records alike — is returned unchanged. -/
theorem C3_webhook_invalid_signature (db : DB) :
    stripe_webhook none db = (WebhookResp.httpError 400, db) :=
  rfl

/-! ## Only the webhook credits balances (C2) -/

theorem forall2_credit_refl (l : List User) : List.Forall₂ creditNonIncrease l l :=
  List.forall₂_same.mpr (fun u _ => ⟨rfl, le_refl u.credits⟩)

theorem forall2_credit_update (l : List User) (uid : Nat) (d : Int) (hd : d ≤ 0) :
    List.Forall₂ creditNonIncrease l (updateUserCredits l uid d) := by
  induction l with
  | nil => exact List.Forall₂.nil
  | cons u us ih =>
    simp only [updateUserCredits, List.map_cons]
    refine List.Forall₂.cons ?_ ?_
    · by_cases h : u.id = uid
      · rw [if_pos h]
        refine ⟨rfl, ?_⟩
        show u.credits + d ≤ u.credits
        omega
      · rw [if_neg h]
        exact ⟨rfl, le_refl u.credits⟩
    · exact ih

theorem length_updateUserCredits (l : List User) (uid : Nat) (d : Int) :
    (updateUserCredits l uid d).length = l.length :=
  List.length_map l _

theorem take_self_of_len {α : Type} (l l' : List α) (h : l'.length = l.length) :
    l'.take l.length = l' := by
  rw [← h]
  exact List.take_length l'

theorem upload_db_users (pe : List Nat → List Nat) (o : UploadOracles) (db : DB)
    (fs : FS) (cu : User) (content : List Nat) (fn : String) (qt : QuestionType) :
    (upload_question_image pe o db fs cu content fn qt).db.users = db.users ∨
    (upload_question_image pe o db fs cu content fn qt).db.users =
      updateUserCredits db.users cu.id (-1) := by
  unfold upload_question_image
  split
  · exact Or.inl rfl
  · split
    · exact Or.inl rfl
    · split
      · exact Or.inl rfl
      · split
        · exact Or.inl rfl
        · split
          · exact Or.inr rfl
          · exact Or.inl rfl

theorem delete_db_users (db : DB) (fs : FS) (cu : User) (qid : Nat) :
    (delete_question db fs cu qid).2.1.users = db.users := by
  unfold delete_question
  split
  · rfl
  · split
    · rfl
    · rfl

theorem login_db (verifyPw : String → String → Bool) (db : DB) (u p : String) :
    (login_for_access_token verifyPw db u p).2 = db := by
  unfold login_for_access_token
  split
  · rfl
  · split
    · rfl
    · rfl

theorem create_payment_intent_db (so : Bool) (db : DB) (pkg : String) :
    (create_payment_intent so db pkg).2 = db := by
  unfold create_payment_intent
  split
  · rfl
  · split
    · rfl
    · rfl

/-- C2: across every reachable state, no client-facing endpoint other than
the verified webhook ever increases any account's balance: for every
non-webhook endpoint invocation, every pre-existing user row maps to a
post-state row with the same id and a balance no larger than before (new
rows appended by registration are beyond the `take`). -/
theorem C2_only_webhook_increases_balances (c : EndpointCall) (db : DB) (fs : FS) :
    List.Forall₂ creditNonIncrease db.users
      ((applyCall c db fs).1.users.take db.users.length) := by
  cases c with
  | register e hp =>
    simp only [applyCall, register_user]
    split
    · rw [List.take_length]
      exact forall2_credit_refl db.users
    · show List.Forall₂ creditNonIncrease db.users ((db.users ++ [_]).take db.users.length)
      rw [List.take_left]
      exact forall2_credit_refl db.users
  | login v u p =>
    simp only [applyCall, login_db]
    rw [List.take_length]
    exact forall2_credit_refl db.users
  | me uid =>
    simp only [applyCall]
    rw [List.take_length]
    exact forall2_credit_refl db.users
  | upload pe o uid content fn qt =>
    simp only [applyCall, withActiveUser]
    split
    · rw [List.take_length]
      exact forall2_credit_refl db.users
    · split
      · rename_i x cu hfind hactive
        rcases upload_db_users pe o db fs cu content fn qt with h | h
        · simp only [h]
          rw [List.take_length]
          exact forall2_credit_refl db.users
        · simp only [h]
          rw [take_self_of_len db.users _ (length_updateUserCredits db.users _ (-1))]
          exact forall2_credit_update db.users _ (-1) (by omega)
      · rw [List.take_length]
        exact forall2_credit_refl db.users
  | listQuestions uid skip limit =>
    simp only [applyCall]
    rw [List.take_length]
    exact forall2_credit_refl db.users
  | getQ uid qid =>
    simp only [applyCall]
    rw [List.take_length]
    exact forall2_credit_refl db.users
  | deleteQ uid qid =>
    simp only [applyCall, withActiveUser]
    split
    · rw [List.take_length]
      exact forall2_credit_refl db.users
    · split
      · simp only [delete_db_users]
        rw [List.take_length]
        exact forall2_credit_refl db.users
      · rw [List.take_length]
        exact forall2_credit_refl db.users
  | createIntent so uid pkg =>
    simp only [applyCall, create_payment_intent_db]
    rw [List.take_length]
    exact forall2_credit_refl db.users
  | history uid skip limit =>
    simp only [applyCall]
    rw [List.take_length]
    exact forall2_credit_refl db.users

/-! ## Upload credit gating and compensating cleanup -/

/-- C4: an upload request by a user whose balance is zero or negative is
rejected with the 402 insufficient-credit error before any external paid
call is made and before any file is written; balance, question table and
storage are all untouched. -/
theorem C4_upload_rejected_before_paid_calls (pngEncode : List Nat → List Nat)
    (o : UploadOracles) (db : DB) (fs : FS) (cu : User) (content : List Nat)
    (fn : String) (qt : QuestionType) (h : cu.credits ≤ 0) :
    upload_question_image pngEncode o db fs cu content fn qt =
      { resp := UploadResponse.payment402, db := db, fs := fs, paidCalls := [] } := by
  unfold upload_question_image
  rw [if_pos h]

theorem C4_witness :
    c4User.credits ≤ 0 ∧
    upload_question_image (fun l => l) c4Oracles c4Db [] c4User [1] ("a.jpg")
        QuestionType.multiple_choice =
      { resp := UploadResponse.payment402, db := c4Db, fs := [], paidCalls := [] } :=
  ⟨by decide,
    C4_upload_rejected_before_paid_calls (fun l => l) c4Oracles c4Db [] c4User [1]
      ("a.jpg") QuestionType.multiple_choice (by decide)⟩

theorem save_ok_write (pngEncode : List Nat → List Nat) (hs co : Bool)
    (uuid : String) (fs : FS) (content : List Nat) (name dir path : String) (fs' : FS)
    (hsave : save_uploaded_image pngEncode hs co uuid fs content name dir =
      Except.ok (path, fs')) :
    ∃ c, fs' = FS.write fs path c := by
  unfold save_uploaded_image at hsave
  cases hpf : process_image_file pngEncode hs co content name with
  | error e =>
    rw [hpf] at hsave
    exact absurd hsave (by simp)
  | ok ce =>
    obtain ⟨c, ext⟩ := ce
    rw [hpf] at hsave
    simp only [Except.ok.injEq, Prod.mk.injEq] at hsave
    obtain ⟨hp, hf⟩ := hsave
    exact ⟨c, by rw [← hf, hp]⟩

/-- C5: when an upload fails after the image file has been written — the
OCR call raises, the analysis call raises (including a malformed provider
response), or the final commit fails — the handler answers HTTP 500, the
written file is removed (storage restored exactly), and nothing is
persisted: the caller's balance is not debited and no question row is
created. -/
theorem C5_failed_upload_no_orphan_no_debit (pngEncode : List Nat → List Nat)
    (o : UploadOracles) (db : DB) (fs : FS) (cu : User) (content : List Nat)
    (fn : String) (qt : QuestionType) (path : String) (fs' : FS)
    (hsave : save_uploaded_image pngEncode o.heifSupport o.convertOk o.uuid fs
      content fn ("uploads") = Except.ok (path, fs'))
    (hfresh : FS.read fs path = none)
    (hfail : (∃ e, o.ocr = Except.error e) ∨ (∃ e, o.analysis = Except.error e) ∨
      o.commitOk = false)
    (hcred : 0 < cu.credits) :
    (upload_question_image pngEncode o db fs cu content fn qt).resp =
      UploadResponse.serverError500 ∧
    (upload_question_image pngEncode o db fs cu content fn qt).db = db ∧
    (upload_question_image pngEncode o db fs cu content fn qt).fs = fs := by
  obtain ⟨c, hc⟩ :=
    save_ok_write pngEncode o.heifSupport o.convertOk o.uuid fs content fn ("uploads")
      path fs' hsave
  have hrm : FS.remove fs' path = fs := by
    rw [hc]
    exact FS.remove_write_fresh fs path c hfresh
  have hnotle : ¬ cu.credits ≤ 0 := not_le.mpr hcred
  unfold upload_question_image
  rw [if_neg hnotle, hsave]
  rcases hfail with ⟨e, he⟩ | ⟨e, he⟩ | hco
  · rw [he]
    simp [hrm]
  · cases ho : o.ocr with
    | error e2 => simp [hrm]
    | ok t =>
      rw [he]
      simp [hrm]
  · cases ho : o.ocr with
    | error e2 => simp [hrm]
    | ok t =>
      cases ha : o.analysis with
      | error e2 => simp [hrm]
      | ok a =>
        obtain ⟨q1, q2, q3, q4⟩ := a
        rw [hco]
        simp [hrm]

theorem C5_witness :
    (upload_question_image (fun l => l) c5Oracles c5Db [] c5User [1] ("a.jpg")
        QuestionType.multiple_choice).resp = UploadResponse.serverError500 ∧
    (upload_question_image (fun l => l) c5Oracles c5Db [] c5User [1] ("a.jpg")
        QuestionType.multiple_choice).db = c5Db ∧
    (upload_question_image (fun l => l) c5Oracles c5Db [] c5User [1] ("a.jpg")
        QuestionType.multiple_choice).fs = [] :=
  C5_failed_upload_no_orphan_no_debit (fun l => l) c5Oracles c5Db [] c5User [1]
    ("a.jpg") QuestionType.multiple_choice ("uploads/u.jpg")
    [(("uploads/u.jpg"), [1])] (by decide) (by decide)
    (Or.inl ⟨("boom"), rfl⟩) (by decide)

/-! ## Question deletion (C9) and registration (C10) -/

/-- C9: deleting a question the caller owns succeeds, removes the backing
image file from storage, and removes the row: a subsequent fetch of the
same question id answers 404. -/
theorem C9_delete_then_fetch (db : DB) (fs : FS) (cu : User) (qid : Nat) (q : Question)
    (hq : db.questions.find? (fun q2 => q2.id == qid) = some q)
    (hown : q.user_id = cu.id)
    (hids : (db.questions.map (fun q2 => q2.id)).Nodup) :
    (delete_question db fs cu qid).1 = Except.ok () ∧
    FS.read (delete_question db fs cu qid).2.2 q.image_path = none ∧
    get_question (delete_question db fs cu qid).2.1 cu qid = Except.error 404 := by
  have hnone : (db.questions.eraseP (fun q2 => q2.id == qid)).find?
      (fun q2 => q2.id == qid) = none := by
    have hqmem : q ∈ db.questions := List.mem_of_find?_eq_some hq
    have hqp := List.find?_some hq
    obtain ⟨a, l₁, l₂, hl₁, hpa, hdecomp, herase⟩ :=
      @List.exists_of_eraseP Question (fun q2 => q2.id == qid) db.questions q hqmem hqp
    rw [herase]
    apply List.find?_eq_none.mpr
    intro b hb
    rcases List.mem_append.mp hb with h1 | h2
    · exact fun hbp => hl₁ b h1 hbp
    · intro hbp
      have hbid : b.id = qid := by simpa using hbp
      have haid : a.id = qid := by simpa using hpa
      rw [hdecomp, List.map_append, List.map_cons] at hids
      have hnotin : a.id ∉ l₂.map (fun q2 => q2.id) :=
        (List.nodup_cons.mp hids.of_append_right).1
      apply hnotin
      rw [haid, ← hbid]
      exact List.mem_map_of_mem (fun q2 => q2.id) h2
  simp only [delete_question, hq]
  rw [if_neg (fun hne => hne hown)]
  refine ⟨rfl, FS.read_remove fs q.image_path, ?_⟩
  simp only [get_question]
  rw [hnone]

theorem C9_witness :
    (delete_question c9Db c9Fs c9User 1).1 = Except.ok () ∧
    FS.read (delete_question c9Db c9Fs c9User 1).2.2 c9Question.image_path = none ∧
    get_question (delete_question c9Db c9Fs c9User 1).2.1 c9User 1 = Except.error 404 :=
  C9_delete_then_fetch c9Db c9Fs c9User 1 c9Question (by decide) (by decide) (by decide)

/-- C10: every successful registration creates the account with exactly 5
credits, active, and not superuser, and appends exactly that row. -/
theorem C10_register_initial_state (db : DB) (email hashedPw : String)
    (hfree : db.users.find? (fun u => u.email == email) = none) :
    ∃ u : User,
      (register_user db email hashedPw).1 = Except.ok u ∧
      u.credits = 5 ∧ u.is_active = true ∧ u.is_superuser = false ∧
      (register_user db email hashedPw).2.users = db.users ++ [u] := by
  unfold register_user
  rw [hfree]
  exact ⟨_, rfl, rfl, rfl, rfl, rfl⟩

theorem C10_witness :
    ∃ u : User,
      (register_user c10Db ("new@example.com") ("h")).1 = Except.ok u ∧
      u.credits = 5 ∧ u.is_active = true ∧ u.is_superuser = false ∧
      (register_user c10Db ("new@example.com") ("h")).2.users = c10Db.users ++ [u] :=
  C10_register_initial_state c10Db ("new@example.com") ("h") (by decide)

end ExamBot
